import Mathlib

/-!
Shallow embedding of the user-authentication and calendar-event code of the
repository (src/utils/db_auth.py, src/utils/login.py, src/utils/calendar_db.py,
src/utils/azure_ai.py), together with proofs of the specification's claims.

Conventions of the embedding:
* a database table is a list of rows in insertion order; each SQL statement
  issued by the code is translated to the corresponding pure list operation;
* timestamps (`CURRENT_TIMESTAMP`) are modelled as a `Nat` argument `now`
  supplied to each operation that reads the clock;
* SHA-256 (`hashlib.sha256(...).hexdigest()`, used only as an opaque-digest
  function by `db_auth.py`) is modelled as an arbitrary function
  `hash : String → String` passed to the operations that hash;
* Python's `str.split(sep)` / `sep.join(...)` and `s[:n]` slicing are modelled
  character-by-character with their exact Python semantics.
-/

/-! ## Python string primitives used by the code -/

/-- Characters of Python `",".join(groups)`: the groups concatenated with a
single `','` between consecutive groups. -/
def joinCommaChars : List (List Char) → List Char
  | [] => []
  | [g] => g
  | g :: g' :: gs => g ++ ',' :: joinCommaChars (g' :: gs)

/-- Characters of Python `s.split(",")`: cut at every `','`, keeping empty
pieces; the empty input yields one empty group, as in Python. -/
def splitCommaChars : List Char → List (List Char)
  | [] => [[]]
  | c :: cs =>
    if c = ',' then [] :: splitCommaChars cs
    else
      match splitCommaChars cs with
      | [] => [[c]]
      | g :: gs => (c :: g) :: gs

/-- Python `",".join(xs)` on strings. -/
def pyJoinComma (xs : List String) : String :=
  String.mk (joinCommaChars (xs.map String.data))

/-- Python `s.split(",")` on strings. -/
def pySplitComma (s : String) : List String :=
  (splitCommaChars s.data).map String.mk

/-- Python slicing `s[:n]`: the first `n` characters of `s`. -/
def pySlice (s : String) (n : Nat) : String :=
  String.mk (s.data.take n)

/-- Python `s.startswith(pre)`. -/
def pyStartsWith (s pre : String) : Bool :=
  pre.data.isPrefixOf s.data

/-- Whitespace stripped by Python `str.strip()` (ASCII part). -/
def pyIsSpace (c : Char) : Bool :=
  c = ' ' ∨ c = '\t' ∨ c = '\n' ∨ c = '\r' ∨ c = Char.ofNat 11 ∨ c = Char.ofNat 12

/-- Python `s.strip()`: remove whitespace from both ends. -/
def pyStrip (s : String) : String :=
  String.mk (((s.data.dropWhile pyIsSpace).reverse.dropWhile pyIsSpace).reverse)

/-- Replacement loop of Python `s.replace(old, new)` for a nonempty `old`:
replace non-overlapping occurrences left to right. The fuel starts at the
length of the text, which one unit of progress per step never exhausts. -/
def replaceChars (old new : List Char) : Nat → List Char → List Char
  | 0, cs => cs
  | _ + 1, [] => []
  | fuel + 1, c :: cs =>
    if old.isPrefixOf (c :: cs) then
      new ++ replaceChars old new fuel (cs.drop (old.length - 1))
    else c :: replaceChars old new fuel cs

/-- Python `s.replace(old, new)` (the code only calls it with nonempty
`old`; an empty `old` is treated as the identity here). -/
def pyReplace (s old new : String) : String :=
  if old.data.isEmpty then s
  else String.mk (replaceChars old.data new.data s.data.length s.data)

/-- Python `s.lower()` (ASCII case mapping). -/
def pyLower (s : String) : String :=
  String.mk (s.data.map Char.toLower)

/-! ## db_auth.py — UserDB -/

/-- Row of the `users` table
(`username PK, password_hash, permissions, created_at, last_login`). -/
structure UserRow where
  username : String
  password_hash : String
  permissions : String
  created_at : Nat
  last_login : Option Nat
deriving DecidableEq

/-- The `users` table, rows in insertion order. -/
abbrev UsersTable := List UserRow

/-- Value returned by a successful `UserDB.authenticate`
(db_auth.py lines 75-78). -/
structure AuthInfo where
  username : String
  permissions : List String
deriving DecidableEq

/-- Permission string read back from the table:
`result[1].split(",") if result[1] else []` (db_auth.py line 77; an empty
string is falsy in Python, so it parses to the empty list). -/
def parsePermissions (s : String) : List String :=
  if s = "" then [] else pySplitComma s

/-- `UserDB.authenticate` (db_auth.py lines 57-81): select the row matching
both username and SHA-256 digest of the submitted password; on a hit, set
`last_login = CURRENT_TIMESTAMP` on that username and return
`{username, permissions}`; on a miss return `None`. -/
def authenticate (hash : String → String) (db : UsersTable)
    (username password : String) (now : Nat) : Option AuthInfo × UsersTable :=
  let password_hash := hash password
  match db.find? (fun r => r.username == username && r.password_hash == password_hash) with
  | some r =>
      (some { username := r.username, permissions := parsePermissions r.permissions },
       db.map (fun q => if q.username = username then { q with last_login := some now } else q))
  | none => (none, db)

/-- `UserDB.add_user` (db_auth.py lines 83-104): fail if a row with this
username already exists, otherwise insert a new row with the hashed password,
the comma-joined permission string, `created_at = CURRENT_TIMESTAMP`, and a
NULL `last_login`. -/
def add_user (hash : String → String) (db : UsersTable)
    (username password : String) (permissions : List String) (now : Nat) :
    Bool × UsersTable :=
  if (db.find? (fun r => r.username == username)).isSome then (false, db)
  else
    (true, db ++ [{ username := username
                    password_hash := hash password
                    permissions := pyJoinComma permissions
                    created_at := now
                    last_login := none }])

/-- `UserDB.update_permissions` (db_auth.py lines 106-120): run
`UPDATE users SET permissions = ? WHERE username = ?`. DuckDB returns the
affected-row count as a one-row result set, so `result.fetchone()` is a
`(count,)` tuple — never `None` — and the function returns `True` whether or
not any row matched. -/
def update_permissions (db : UsersTable) (username : String)
    (permissions : List String) : Bool × UsersTable :=
  let permissions_str := pyJoinComma permissions
  (true,
   db.map (fun r => if r.username = username then { r with permissions := permissions_str } else r))

/-- `UserDB.delete_user` (db_auth.py lines 143-156): refuse to delete the
distinguished `admin` user; otherwise delete every row with this username and
report success. -/
def delete_user (db : UsersTable) (username : String) : Bool × UsersTable :=
  if username = "admin" then (false, db)
  else (true, db.filter (fun r => !(r.username == username)))

/-- Entry of the list returned by `UserDB.get_all_users`
(db_auth.py lines 131-138). -/
structure UserInfo where
  username : String
  permissions : List String
  created_at : Nat
  last_login : Option Nat
deriving DecidableEq

/-- Insertion step of the model of SQL `ORDER BY username`. -/
def insertByUsername (r : UserRow) : UsersTable → UsersTable
  | [] => [r]
  | q :: qs => if r.username ≤ q.username then r :: q :: qs else q :: insertByUsername r qs

/-- Model of SQL `ORDER BY username` (ascending) as insertion sort. -/
def sortByUsername : UsersTable → UsersTable
  | [] => []
  | r :: rs => insertByUsername r (sortByUsername rs)

/-- `UserDB.get_all_users` (db_auth.py lines 122-141): select all rows ordered
by username and parse each permission string back into a list. -/
def get_all_users (db : UsersTable) : List UserInfo :=
  (sortByUsername db).map (fun r =>
    { username := r.username
      permissions := parsePermissions r.permissions
      created_at := r.created_at
      last_login := r.last_login })

/-! ## login.py — session checks -/

/-- Streamlit session state as used by login.py: the `username` and
`permissions` keys, each possibly absent. -/
structure SessionState where
  username : Option String
  permissions : Option (List String)
deriving DecidableEq

/-- Page-name normalisation applied by `check_permission`
(login.py line 69): `page_name.lower().replace(" ", "_")`. -/
def pageToken (page_name : String) : String :=
  pyReplace (pyLower page_name) " " "_"

/-- `check_permission` (login.py lines 65-69): `False` when the session has no
`permissions` key, otherwise membership of the normalised page name in the
session's permission list. -/
def check_permission (s : SessionState) (page_name : String) : Bool :=
  match s.permissions with
  | none => false
  | some perms => perms.contains (pageToken page_name)

/-- `is_admin` (login.py lines 77-79):
`st.session_state.get("username") == "admin"`. -/
def is_admin (s : SessionState) : Bool :=
  s.username == some "admin"

/-! ## calendar_db.py — CalendarEventDB -/

/-- Row of the `calendar_events` table. `id` is declared
`INTEGER PRIMARY KEY`; the slot is `Option Int` so that an INSERT that
supplies no `id` can be modelled as inserting NULL. -/
structure EventRow where
  id : Option Int
  title : String
  event_date : String
  event_time : String
  location : String
  description : String
  extracted_text : String
  created_by : String
  created_at : Nat
  updated_at : Nat
deriving DecidableEq

/-- The `calendar_events` table, rows in insertion order. -/
abbrev EventsTable := List EventRow

/-- Python `Dict[str, str]` argument of the event operations, as key/value
pairs in binding order (a later binding for the same key wins, as in a dict). -/
abbrev StrDict := List (String × String)

/-- Python `d.get(k, "")` on a `Dict[str, str]`. -/
def dictGet (d : StrDict) (k : String) : String :=
  match d.reverse.find? (fun p => p.1 == k) with
  | some p => p.2
  | none => ""

/-- DuckDB semantics of inserting a row into `calendar_events`: the
`INTEGER PRIMARY KEY` column is NOT NULL and unique, and DuckDB has no
auto-increment and the column has no DEFAULT, so a NULL or duplicate `id`
raises a ConstraintException and leaves the table unchanged. -/
def insertEventRow (db : EventsTable) (row : EventRow) : Bool × EventsTable :=
  match row.id with
  | none => (false, db)
  | some i => if db.any (fun r => r.id == some i) then (false, db) else (true, db ++ [row])

/-- `CalendarEventDB.add_calendar_event` (calendar_db.py lines 51-87): the
INSERT names the seven non-key, non-timestamp columns and no `id`, so the
inserted `id` is NULL; the ConstraintException raised by DuckDB is caught by
the `except` block and the function returns `False`. -/
def add_calendar_event (db : EventsTable) (event : StrDict) (username : String)
    (extracted_text : String) (now : Nat) : Bool × EventsTable :=
  insertEventRow db
    { id := none
      title := dictGet event "title"
      event_date := dictGet event "date"
      event_time := dictGet event "time"
      location := dictGet event "location"
      description := dictGet event "description"
      extracted_text := extracted_text
      created_by := username
      created_at := now
      updated_at := now }

/-- Field update applied by `CalendarEventDB.update_calendar_event`'s UPDATE
statement to a matching row (calendar_db.py lines 156-168): the five mutable
columns are set from `event.get(..., "")` and `updated_at` is refreshed. -/
def updateFields (event : StrDict) (now : Nat) (r : EventRow) : EventRow :=
  { r with
    title := dictGet event "title"
    event_date := dictGet event "date"
    event_time := dictGet event "time"
    location := dictGet event "location"
    description := dictGet event "description"
    updated_at := now }

/-- `CalendarEventDB.update_calendar_event` (calendar_db.py lines 142-177):
run the UPDATE on every row whose `id` matches and report success. -/
def update_calendar_event (db : EventsTable) (event_id : Int) (event : StrDict)
    (now : Nat) : Bool × EventsTable :=
  (true, db.map (fun r => if r.id = some event_id then updateFields event now r else r))

/-- `CalendarEventDB.delete_calendar_event` (calendar_db.py lines 179-200). -/
def delete_calendar_event (db : EventsTable) (event_id : Int) : Bool × EventsTable :=
  (true, db.filter (fun r => !(r.id == some event_id)))

/-- Result of `CalendarEventDB.get_calendar_stats`
(calendar_db.py lines 228-232); `user_counts` is the `GROUP BY created_by`
result as (creator, count) pairs. -/
structure CalendarStats where
  total_events : Nat
  recent_events : Nat
  user_counts : List (String × Nat)
deriving DecidableEq

/-- Seconds in the `INTERVAL 7 DAY` of the recent-events query. -/
def sevenDays : Nat := 7 * 24 * 60 * 60

/-- `SELECT created_by, COUNT(*) FROM calendar_events GROUP BY created_by`:
one pair per distinct creator, in order of first appearance. -/
def groupByCreator (db : EventsTable) : List (String × Nat) :=
  ((db.map (fun r => r.created_by)).eraseDups).map
    (fun u => (u, (db.filter (fun r => r.created_by == u)).length))

/-- `CalendarEventDB.get_calendar_stats` (calendar_db.py lines 202-238):
total row count, count of rows with `created_at >= now - 7 days`, and the
per-creator counts. -/
def get_calendar_stats (db : EventsTable) (now : Nat) : CalendarStats :=
  { total_events := db.length
    recent_events := (db.filter (fun r => now ≤ r.created_at + sevenDays)).length
    user_counts := groupByCreator db }

/-! ## azure_ai.py — extraction-response handling

The response handling of
`AzureOpenAICalendarExtractor.extract_calendar_events_from_image`
(azure_ai.py lines 188-229) is pure string/JSON processing once the model
response text is in hand; it is embedded here as a function of that text.
`json.loads` is modelled by a JSON parser producing Python-shaped values. -/

/-- Values produced by `json.loads`. Numbers keep their source lexeme. -/
inductive PyJson where
  | null
  | bool (b : Bool)
  | num (lexeme : String)
  | str (s : String)
  | arr (elems : List PyJson)
  | obj (fields : List (String × PyJson))

/-- Whitespace skipping of the JSON grammar. -/
def skipWs : List Char → List Char
  | [] => []
  | c :: cs => if c = ' ' ∨ c = '\t' ∨ c = '\n' ∨ c = '\r' then skipWs cs else c :: cs

/-- Value of a hexadecimal digit. -/
def hexVal (c : Char) : Option Nat :=
  if '0' ≤ c ∧ c ≤ '9' then some (c.toNat - '0'.toNat)
  else if 'a' ≤ c ∧ c ≤ 'f' then some (c.toNat - 'a'.toNat + 10)
  else if 'A' ≤ c ∧ c ≤ 'F' then some (c.toNat - 'A'.toNat + 10)
  else none

/-- Body of a JSON string literal, after the opening quote: returns the
decoded characters and the input following the closing quote. Unescaped
control characters are rejected, as by Python's strict `json.loads`; a
`\uXXXX` escape decodes to the code point (surrogate pairs are not combined,
an approximation of the library behaviour). -/
def parseStringBody : List Char → Option (List Char × List Char)
  | [] => none
  | '"' :: rest => some ([], rest)
  | '\\' :: rest =>
    match rest with
    | 'u' :: a :: b :: c :: d :: rest' =>
      match hexVal a, hexVal b, hexVal c, hexVal d with
      | some ha, some hb, some hc, some hd =>
        (parseStringBody rest').map
          (fun p => (Char.ofNat (((ha * 16 + hb) * 16 + hc) * 16 + hd) :: p.1, p.2))
      | _, _, _, _ => none
    | e :: rest' =>
      let dec : Option Char :=
        if e = '"' then some '"'
        else if e = '\\' then some '\\'
        else if e = '/' then some '/'
        else if e = 'b' then some (Char.ofNat 8)
        else if e = 'f' then some (Char.ofNat 12)
        else if e = 'n' then some '\n'
        else if e = 'r' then some '\r'
        else if e = 't' then some '\t'
        else none
      match dec with
      | some ch => (parseStringBody rest').map (fun p => (ch :: p.1, p.2))
      | none => none
    | [] => none
  | c :: rest =>
    if c.toNat < 32 then none
    else (parseStringBody rest).map (fun p => (c :: p.1, p.2))

/-- Longest run of decimal digits at the front of the input. -/
def takeDigits : List Char → List Char × List Char
  | [] => ([], [])
  | c :: cs =>
    if c.isDigit then
      let p := takeDigits cs
      (c :: p.1, p.2)
    else ([], c :: cs)

/-- Lexeme of a JSON number (`-?(0|[1-9][0-9]*)(.[0-9]+)?([eE][+-]?[0-9]+)?`),
matched maximally, as by the `json` module's number regex. -/
def parseNumberLexeme (cs : List Char) : Option (List Char × List Char) :=
  let (sign, cs1) : List Char × List Char :=
    match cs with
    | '-' :: t => (['-'], t)
    | _ => ([], cs)
  let intPart : Option (List Char × List Char) :=
    match cs1 with
    | '0' :: t => some (['0'], t)
    | c :: t =>
      if c.isDigit then
        let p := takeDigits t
        some (c :: p.1, p.2)
      else none
    | [] => none
  match intPart with
  | none => none
  | some (ip, cs2) =>
    let (fp, cs3) : List Char × List Char :=
      match cs2 with
      | '.' :: t =>
        match takeDigits t with
        | ([], _) => ([], cs2)
        | (ds, u) => ('.' :: ds, u)
      | _ => ([], cs2)
    let (ep, cs4) : List Char × List Char :=
      match cs3 with
      | e :: t =>
        if e = 'e' ∨ e = 'E' then
          let (sgn, t1) : List Char × List Char :=
            match t with
            | s :: t' => if s = '+' ∨ s = '-' then ([s], t') else ([], t)
            | [] => ([], t)
          match takeDigits t1 with
          | ([], _) => ([], cs3)
          | (ds, u) => (e :: (sgn ++ ds), u)
        else ([], cs3)
      | [] => ([], cs3)
    some (sign ++ ip ++ fp ++ ep, cs4)

mutual

/-- JSON value parser (fuel-indexed recursive descent), modelling the
grammar accepted by `json.loads`. -/
def parseValue : Nat → List Char → Option (PyJson × List Char)
  | 0, _ => none
  | fuel + 1, cs =>
    match skipWs cs with
    | 't' :: 'r' :: 'u' :: 'e' :: rest => some (.bool true, rest)
    | 'f' :: 'a' :: 'l' :: 's' :: 'e' :: rest => some (.bool false, rest)
    | 'n' :: 'u' :: 'l' :: 'l' :: rest => some (.null, rest)
    | '"' :: rest => (parseStringBody rest).map (fun p => (.str (String.mk p.1), p.2))
    | '[' :: rest =>
      match skipWs rest with
      | ']' :: rest' => some (.arr [], rest')
      | rest' => parseArrayItems fuel rest' []
    | '{' :: rest =>
      match skipWs rest with
      | '}' :: rest' => some (.obj [], rest')
      | rest' => parseObjItems fuel rest' []
    | other =>
      (parseNumberLexeme other).map (fun p => (.num (String.mk p.1), p.2))

/-- Elements of a JSON array after the first `[` (accumulator in order). -/
def parseArrayItems : Nat → List Char → List PyJson → Option (PyJson × List Char)
  | 0, _, _ => none
  | fuel + 1, cs, acc =>
    match parseValue fuel cs with
    | none => none
    | some (v, rest) =>
      match skipWs rest with
      | ',' :: rest' => parseArrayItems fuel rest' (acc ++ [v])
      | ']' :: rest' => some (.arr (acc ++ [v]), rest')
      | _ => none

/-- Members of a JSON object after the first `{` (accumulator in binding
order; a repeated key is kept with both bindings, the later one winning on
lookup, as in a Python dict built by `json.loads`). -/
def parseObjItems : Nat → List Char → List (String × PyJson) → Option (PyJson × List Char)
  | 0, _, _ => none
  | fuel + 1, cs, acc =>
    match skipWs cs with
    | '"' :: rest =>
      match parseStringBody rest with
      | none => none
      | some (key, rest1) =>
        match skipWs rest1 with
        | ':' :: rest2 =>
          match parseValue fuel rest2 with
          | none => none
          | some (v, rest3) =>
            match skipWs rest3 with
            | ',' :: rest4 => parseObjItems fuel rest4 (acc ++ [(String.mk key, v)])
            | '}' :: rest4 => some (.obj (acc ++ [(String.mk key, v)]), rest4)
            | _ => none
        | _ => none
    | _ => none

end

/-- `json.loads`: parse one JSON value and require only whitespace after it. -/
def json_loads (s : String) : Option PyJson :=
  match parseValue (4 * s.length + 8) s.data with
  | some (v, rest) => if skipWs rest = [] then some v else none
  | none => none

mutual

/-- Python `repr` of a value produced by `json.loads` (string escaping inside
`repr` of nested strings is not reproduced; numeric lexemes stand in for
Python's rendering of the parsed number). -/
def pyRepr : PyJson → String
  | .null => "None"
  | .bool true => "True"
  | .bool false => "False"
  | .num lx => lx
  | .str s => "\x27" ++ s ++ "\x27"
  | .arr es => "[" ++ pyReprItems es ++ "]"
  | .obj fs => "\x7b" ++ pyReprFields fs ++ "\x7d"

/-- Comma-separated `repr`s of list elements. -/
def pyReprItems : List PyJson → String
  | [] => ""
  | [e] => pyRepr e
  | e :: e' :: es => pyRepr e ++ ", " ++ pyReprItems (e' :: es)

/-- Comma-separated `repr`s of dict items. -/
def pyReprFields : List (String × PyJson) → String
  | [] => ""
  | [(k, v)] => "\x27" ++ k ++ "\x27: " ++ pyRepr v
  | (k, v) :: f :: fs => "\x27" ++ k ++ "\x27: " ++ pyRepr v ++ ", " ++ pyReprFields (f :: fs)

end

/-- Python `str(...)` of a value produced by `json.loads`: the identity on
strings, `repr` otherwise. -/
def pyStr : PyJson → String
  | .str s => s
  | .null => pyRepr .null
  | .bool b => pyRepr (.bool b)
  | .num lx => pyRepr (.num lx)
  | .arr es => pyRepr (.arr es)
  | .obj fs => pyRepr (.obj fs)

/-- Zero test on a JSON number lexeme: the number is zero exactly when its
mantissa (the part before any exponent) has no nonzero digit. -/
def jsonNumIsZero (lx : String) : Bool :=
  (lx.data.takeWhile (fun c => !(c == 'e' ∨ c == 'E'))).all
    (fun c => !(['1', '2', '3', '4', '5', '6', '7', '8', '9'].contains c))

/-- Python truthiness of a value produced by `json.loads`: `None`, `False`,
zero numbers, and empty strings/lists/dicts are falsy. -/
def pyTruthy : PyJson → Bool
  | .null => false
  | .bool b => b
  | .num lx => !(jsonNumIsZero lx)
  | .str s => !(s == "")
  | .arr es => !es.isEmpty
  | .obj fs => !fs.isEmpty

/-- Python `d.get(k)` on a dict built by `json.loads`: the value of the last
binding of `k`, if any. -/
def objGet (fields : List (String × PyJson)) (k : String) : Option PyJson :=
  (fields.reverse.find? (fun p => p.1 == k)).map (fun p => p.2)

/-- Python `d.get(k, "")`. -/
def objGetD (fields : List (String × PyJson)) (k : String) : PyJson :=
  (objGet fields k).getD (.str "")

/-- Event draft built by the cleanup loop (azure_ai.py lines 214-220). -/
structure CleanedEvent where
  title : String
  date : String
  time : String
  location : String
  description : String
deriving DecidableEq

/-- Truthiness of `event.get("title")` (azure_ai.py line 213): a missing key
yields `None`, which is falsy. -/
def hasTruthyTitle (fields : List (String × PyJson)) : Bool :=
  match objGet fields "title" with
  | some v => pyTruthy v
  | none => false

/-- Cleaned event of azure_ai.py lines 214-220: every field coerced with
`str(...)`, missing fields defaulting to `""`, the title sliced to 100 and the
description to 500 characters. -/
def cleanEvent (fields : List (String × PyJson)) : CleanedEvent :=
  { title := pySlice (pyStr (objGetD fields "title")) 100
    date := pyStr (objGetD fields "date")
    time := pyStr (objGetD fields "time")
    location := pyStr (objGetD fields "location")
    description := pySlice (pyStr (objGetD fields "description")) 500 }

/-- Cleanup loop of azure_ai.py lines 211-221: keep an element only if it is
a dict whose `title` is truthy, and clean it. -/
def cleanEvents : List PyJson → List CleanedEvent
  | [] => []
  | e :: es =>
    match e with
    | .obj fields =>
      if hasTruthyTitle fields then cleanEvent fields :: cleanEvents es
      else cleanEvents es
    | _ => cleanEvents es

/-- Markdown code-fence stripping of azure_ai.py lines 198-201: inside the
`try`, a response starting with a fence has all fence markers removed and is
then stripped of surrounding whitespace. -/
def stripMarkdownFence (response_text : String) : String :=
  if pyStartsWith response_text "```json" then
    pyStrip (pyReplace (pyReplace response_text "```json" "") "```" "")
  else if pyStartsWith response_text "```" then
    pyStrip (pyReplace response_text "```" "")
  else response_text

/-- The text handed to `json.loads`: the raw model message content, stripped
of surrounding whitespace (azure_ai.py line 189) and of any Markdown fence. -/
def fenceStripped (content : String) : String :=
  stripMarkdownFence (pyStrip content)

/-- Response handling of
`AzureOpenAICalendarExtractor.extract_calendar_events_from_image`
(azure_ai.py lines 188-229) as a function of the model message content:
strip, unfence, parse as JSON (a parse failure returns `[]`), return `[]` if
the parsed value is not a list, otherwise run the cleanup loop. -/
def parse_extraction_response (content : String) : List CleanedEvent :=
  match json_loads (fenceStripped content) with
  | none => []
  | some (.arr events) => cleanEvents events
  | some _ => []

/-! ## Helper lemmas on the Python string primitives -/

theorem splitCommaChars_ne_nil (cs : List Char) : splitCommaChars cs ≠ [] := by
  induction cs with
  | nil => simp [splitCommaChars]
  | cons c cs ih =>
    simp only [splitCommaChars]
    split
    · simp
    · match h : splitCommaChars cs with
      | [] => simp
      | g :: gs => simp

theorem splitCommaChars_append (g : List Char) (cs : List Char) (hg : ',' ∉ g)
    (h t : _) (hcs : splitCommaChars cs = h :: t) :
    splitCommaChars (g ++ cs) = (g ++ h) :: t := by
  induction g with
  | nil => simpa using hcs
  | cons c g ih =>
    have hc : c ≠ ',' := fun hc => hg (hc ▸ List.mem_cons_self c g)
    have hg' : ',' ∉ g := fun hm => hg (List.mem_cons_of_mem c hm)
    simp only [List.cons_append, splitCommaChars, if_neg hc, List.append_eq, ih hg']

theorem splitCommaChars_no_comma (g : List Char) (hg : ',' ∉ g) :
    splitCommaChars g = [g] := by
  have := splitCommaChars_append g [] hg [] [] rfl
  simpa using this

theorem splitCommaChars_joinCommaChars (gs : List (List Char)) (hne : gs ≠ [])
    (hc : ∀ g ∈ gs, ',' ∉ g) : splitCommaChars (joinCommaChars gs) = gs := by
  induction gs with
  | nil => exact absurd rfl hne
  | cons g gs ih =>
    match gs with
    | [] =>
      exact splitCommaChars_no_comma g (hc g (List.mem_cons_self g []))
    | g' :: gs' =>
      have hrest : splitCommaChars (joinCommaChars (g' :: gs')) = g' :: gs' :=
        ih (by simp) (fun x hx => hc x (List.mem_cons_of_mem g hx))
      have hsplit : splitCommaChars (',' :: joinCommaChars (g' :: gs')) =
          [] :: g' :: gs' := by
        simp [splitCommaChars, hrest]
      have := splitCommaChars_append g (',' :: joinCommaChars (g' :: gs'))
        (hc g (List.mem_cons_self g _)) [] (g' :: gs') hsplit
      simpa [joinCommaChars] using this

theorem pySplitComma_pyJoinComma (xs : List String) (hne : xs ≠ [])
    (hc : ∀ x ∈ xs, ',' ∉ x.data) : pySplitComma (pyJoinComma xs) = xs := by
  unfold pySplitComma pyJoinComma
  rw [show (String.mk (joinCommaChars (xs.map String.data))).data
        = joinCommaChars (xs.map String.data) from rfl]
  rw [splitCommaChars_joinCommaChars (xs.map String.data)
        (by simpa using hne)
        (by intro g hg
            rcases List.mem_map.mp hg with ⟨x, hx, rfl⟩
            exact hc x hx)]
  rw [List.map_map]
  have : (String.mk ∘ String.data) = id := by
    funext s
    rfl
  simp [this]

theorem pyJoinComma_ne_empty (xs : List String) (hne : xs ≠ [])
    (hx : ∀ x ∈ xs, x ≠ "") : pyJoinComma xs ≠ "" := by
  match xs with
  | [] => exact absurd rfl hne
  | [x] =>
    intro h
    apply hx x (List.mem_cons_self x [])
    have : x.data = ([] : List Char) := by
      have hd := congrArg String.data h
      simpa [pyJoinComma, joinCommaChars] using hd
    cases x
    subst this
    rfl
  | x :: x' :: xs' =>
    intro h
    have hd := congrArg String.data h
    simp only [pyJoinComma, List.map_cons, joinCommaChars] at hd
    have h2 : x.data ++ ',' :: joinCommaChars (x'.data :: List.map String.data xs')
        = ([] : List Char) := hd
    simp at h2

theorem parsePermissions_pyJoinComma (xs : List String)
    (hc : ∀ x ∈ xs, x ≠ "" ∧ ',' ∉ x.data) :
    parsePermissions (pyJoinComma xs) = xs := by
  match xs with
  | [] => rfl
  | x :: xs' =>
    have hne : pyJoinComma (x :: xs') ≠ "" :=
      pyJoinComma_ne_empty _ (by simp) (fun y hy => (hc y hy).1)
    unfold parsePermissions
    rw [if_neg hne]
    exact pySplitComma_pyJoinComma _ (by simp) (fun y hy => (hc y hy).2)

/-- Claim C1: a user inserted by `add_user` under a fresh username with valid
permission tokens is afterwards authenticated by `authenticate` with the same
password, which returns exactly that username with the stored permission set,
while any password whose digest differs from the stored one yields `None`. -/
theorem spec_C1_add_then_authenticate (hash : String → String) (db : UsersTable)
    (u p : String) (perms : List String) (now now' : Nat)
    (hfresh : ∀ r ∈ db, r.username ≠ u)
    (hperms : ∀ t ∈ perms, t ≠ "" ∧ ',' ∉ t.data) :
    (add_user hash db u p perms now).1 = true ∧
    (authenticate hash (add_user hash db u p perms now).2 u p now').1 =
      some { username := u, permissions := perms } ∧
    (∀ wrong, hash wrong ≠ hash p →
      (authenticate hash (add_user hash db u p perms now).2 u wrong now').1 = none) := by
  have hfind : db.find? (fun r => r.username == u) = none :=
    List.find?_eq_none.mpr (fun r hr => by simp [hfresh r hr])
  have hadd : add_user hash db u p perms now =
      (true, db ++ [{ username := u, password_hash := hash p,
                      permissions := pyJoinComma perms, created_at := now,
                      last_login := none }]) := by
    simp [add_user, hfind]
  have hnomatch : ∀ (h : String),
      db.find? (fun r => r.username == u && r.password_hash == h) = none := by
    intro h
    exact List.find?_eq_none.mpr (fun r hr => by simp [hfresh r hr])
  refine ⟨by simp [hadd], ?_, ?_⟩
  · rw [hadd]
    simp [authenticate, List.find?_append, hnomatch, List.find?,
          parsePermissions_pyJoinComma perms hperms]
  · intro wrong hw
    rw [hadd]
    have : (hash p == hash wrong) = false := by
      simp [Ne.symm hw]
    simp [authenticate, List.find?_append, hnomatch, List.find?, this]

theorem listMapId {α : Type} (l : List α) (f : α → α) (h : ∀ x ∈ l, f x = x) :
    l.map f = l := by
  induction l with
  | nil => rfl
  | cons a t ih => simp_all

theorem mem_insertByUsername (r a : UserRow) (l : UsersTable) :
    a ∈ insertByUsername r l ↔ a = r ∨ a ∈ l := by
  induction l with
  | nil => simp [insertByUsername]
  | cons q qs ih =>
    simp only [insertByUsername]
    split
    · simp [List.mem_cons]
    · simp [List.mem_cons, ih]
      tauto

theorem mem_sortByUsername (a : UserRow) (l : UsersTable) :
    a ∈ sortByUsername l ↔ a ∈ l := by
  induction l with
  | nil => simp [sortByUsername]
  | cons r rs ih => simp [sortByUsername, mem_insertByUsername, ih]

/-- Claim C5: `add_user` is idempotent-failing — whenever a record with the
given username already exists, the call returns failure and leaves the table
(hence the existing record) unmodified; in particular a second `add_user`
with the username of a successful first call fails and changes nothing. -/
theorem spec_C5_add_user_idempotent_failing (hash : String → String)
    (db : UsersTable) (u : String) :
    (∀ p perms now, (∃ r ∈ db, r.username = u) →
       add_user hash db u p perms now = (false, db)) ∧
    (∀ p perms now p₂ perms₂ now₂, (∀ r ∈ db, r.username ≠ u) →
       (add_user hash db u p perms now).1 = true ∧
       add_user hash (add_user hash db u p perms now).2 u p₂ perms₂ now₂ =
         (false, (add_user hash db u p perms now).2)) := by
  have hdup : ∀ (db' : UsersTable), (∃ r ∈ db', r.username = u) →
      ∀ p perms now, add_user hash db' u p perms now = (false, db') := by
    intro db' ⟨r, hr, hru⟩ p perms now
    have : (db'.find? (fun r => r.username == u)).isSome :=
      List.find?_isSome.mpr ⟨r, hr, by simp [hru]⟩
    simp [add_user, this]
  refine ⟨fun p perms now h => hdup db h p perms now, ?_⟩
  intro p perms now p₂ perms₂ now₂ hfresh
  have hfind : db.find? (fun r => r.username == u) = none :=
    List.find?_eq_none.mpr (fun r hr => by simp [hfresh r hr])
  have hadd : add_user hash db u p perms now =
      (true, db ++ [{ username := u, password_hash := hash p,
                      permissions := pyJoinComma perms, created_at := now,
                      last_login := none }]) := by
    simp [add_user, hfind]
  refine ⟨by simp [hadd], ?_⟩
  apply hdup
  rw [hadd]
  refine ⟨{ username := u, password_hash := hash p, permissions := pyJoinComma perms,
            created_at := now, last_login := none }, ?_, rfl⟩
  simp

/-- Claim C9: `update_permissions` reports success even for an unknown
username — the UPDATE's result row is an affected-row count, never `None` —
and in that case the users table is left unchanged. -/
theorem spec_C9_update_permissions_unknown_user (db : UsersTable) (u : String)
    (perms : List String) (habsent : ∀ r ∈ db, r.username ≠ u) :
    update_permissions db u perms = (true, db) := by
  unfold update_permissions
  refine Prod.ext rfl ?_
  exact listMapId db _ (fun r hr => by simp [habsent r hr])

/-- Claim C3: `delete_user \"admin\"` returns failure and leaves the users
table unchanged, so an existing admin record is still returned by
`get_all_users` afterwards. -/
theorem spec_C3_delete_admin_fails (db : UsersTable) :
    delete_user db "admin" = (false, db) ∧
    (∀ r ∈ db, r.username = "admin" →
      ∃ uinfo ∈ get_all_users (delete_user db "admin").2, uinfo.username = "admin") := by
  refine ⟨by simp [delete_user], ?_⟩
  intro r hr hadmin
  have h2 : (delete_user db "admin").2 = db := by simp [delete_user]
  rw [h2]
  exact ⟨_, List.mem_map_of_mem _ ((mem_sortByUsername r db).mpr hr), hadmin⟩

/-- Claim C2: `is_admin` is true exactly when the session username is the
literal `admin`, independently of the session's stored permission set;
`check_permission` is false when no session permissions exist and otherwise
holds exactly when the capability token is in the session's permission set
(stated for capability strings fixed by the page-name normalisation, which
all capability tokens are); an `admin` session with an empty permission set
passes `is_admin` but fails every `check_permission`. -/
theorem spec_C2_session_checks :
    (∀ s : SessionState, is_admin s = true ↔ s.username = some "admin") ∧
    (∀ p₁ p₂ : Option (List String),
       is_admin { username := some "admin", permissions := p₁ } = true ∧
       is_admin { username := some "admin", permissions := p₁ } =
         is_admin { username := some "admin", permissions := p₂ }) ∧
    (∀ (s : SessionState) (cap : String),
       s.permissions = none → check_permission s cap = false) ∧
    (∀ (s : SessionState) (cap : String) (ps : List String),
       s.permissions = some ps → pageToken cap = cap →
       (check_permission s cap = true ↔ cap ∈ ps)) ∧
    (∀ cap : String,
       is_admin { username := some "admin", permissions := some [] } = true ∧
       check_permission { username := some "admin", permissions := some [] } cap = false) := by
  refine ⟨?_, ?_, ?_, ?_, ?_⟩
  · intro s
    simp [is_admin]
  · intro p₁ p₂
    exact ⟨by simp [is_admin], by simp [is_admin]⟩
  · intro s cap h
    simp [check_permission, h]
  · intro s cap ps h htok
    simp [check_permission, h, htok, List.contains]
  · intro cap
    exact ⟨by simp [is_admin], by simp [check_permission]⟩

/-- Claim C4: permission persistence round-trips — storing
`\x7bcalendar, image_generator\x7d` through `add_user` in either order and
re-reading through `authenticate` or `get_all_users` yields a set equal to
the original, and storing the empty permission set (via `add_user` or
`update_permissions`) round-trips to the empty set, not to a set containing
an empty-string token. -/
theorem spec_C4_permission_roundtrip (hash : String → String) (u p : String)
    (now now' : Nat) (perms : List String)
    (horder : perms = ["calendar", "image_generator"] ∨
              perms = ["image_generator", "calendar"]) :
    (∃ info, (authenticate hash (add_user hash [] u p perms now).2 u p now').1 =
        some info ∧ info.username = u ∧ info.permissions = perms ∧
        info.permissions.toFinset = ({"calendar", "image_generator"} : Finset String)) ∧
    (∃ ui ∈ get_all_users (add_user hash [] u p perms now).2,
        ui.username = u ∧ ui.permissions = perms) ∧
    ((authenticate hash (add_user hash [] u p [] now).2 u p now').1 =
        some { username := u, permissions := [] }) ∧
    ((authenticate hash
        (update_permissions (add_user hash [] u p perms now).2 u []).2 u p now').1 =
        some { username := u, permissions := [] }) := by
  have hadd : ∀ ps : List String, add_user hash [] u p ps now =
      (true, [{ username := u, password_hash := hash p,
                permissions := pyJoinComma ps, created_at := now,
                last_login := none }]) := by
    intro ps
    simp [add_user, List.find?]
  have hauth : ∀ permstr : String, (authenticate hash
      [{ username := u, password_hash := hash p, permissions := permstr,
         created_at := now, last_login := none }] u p now').1 =
      some { username := u, permissions := parsePermissions permstr } := by
    intro permstr
    simp [authenticate, List.find?]
  have hparse : parsePermissions (pyJoinComma perms) = perms := by
    rcases horder with rfl | rfl <;> rfl
  refine ⟨?_, ?_, ?_, ?_⟩
  · refine ⟨{ username := u, permissions := perms }, ?_, rfl, rfl, ?_⟩
    · rw [hadd perms]
      simpa [hparse] using hauth (pyJoinComma perms)
    · rcases horder with rfl | rfl
      · show (["calendar", "image_generator"] : List String).toFinset =
            ({"calendar", "image_generator"} : Finset String)
        decide
      · show (["image_generator", "calendar"] : List String).toFinset =
            ({"calendar", "image_generator"} : Finset String)
        decide
  · rw [hadd perms]
    refine ⟨{ username := u, permissions := perms, created_at := now,
              last_login := none }, ?_, rfl, rfl⟩
    simp [get_all_users, sortByUsername, insertByUsername, hparse]
  · rw [hadd []]
    simpa using hauth (pyJoinComma [])
  · rw [hadd perms]
    have hupd : (update_permissions
        [{ username := u, password_hash := hash p, permissions := pyJoinComma perms,
           created_at := now, last_login := none }] u []).2 =
        [{ username := u, password_hash := hash p, permissions := pyJoinComma [],
           created_at := now, last_login := none }] := by
      simp [update_permissions]
    rw [hupd]
    simpa using hauth (pyJoinComma [])

/-- Claim C10: for a row whose id matches, `update_calendar_event` overwrites
all five mutable fields from the supplied dict — an absent key is replaced by
the empty string, not preserved — refreshes `updated_at`, and leaves `id`,
`extracted_text`, `created_by` and `created_at` unchanged; rows with other
ids are untouched, and the call reports success. -/
theorem spec_C10_update_event_fields (db : EventsTable) (event_id : Int)
    (event : StrDict) (now : Nat) :
    (update_calendar_event db event_id event now).1 = true ∧
    (∀ r ∈ db, r.id ≠ some event_id →
       r ∈ (update_calendar_event db event_id event now).2) ∧
    (∀ r ∈ db, r.id = some event_id →
       updateFields event now r ∈ (update_calendar_event db event_id event now).2) ∧
    (∀ r : EventRow,
       (updateFields event now r).title = dictGet event "title" ∧
       (updateFields event now r).event_date = dictGet event "date" ∧
       (updateFields event now r).event_time = dictGet event "time" ∧
       (updateFields event now r).location = dictGet event "location" ∧
       (updateFields event now r).description = dictGet event "description" ∧
       (updateFields event now r).updated_at = now ∧
       (updateFields event now r).id = r.id ∧
       (updateFields event now r).extracted_text = r.extracted_text ∧
       (updateFields event now r).created_by = r.created_by ∧
       (updateFields event now r).created_at = r.created_at) ∧
    (∀ k, (∀ pr ∈ event, pr.1 ≠ k) → dictGet event k = "") := by
  refine ⟨rfl, ?_, ?_, ?_, ?_⟩
  · intro r hr hne
    have := List.mem_map_of_mem
      (fun r => if r.id = some event_id then updateFields event now r else r) hr
    simpa [update_calendar_event, if_neg hne] using this
  · intro r hr heq
    have := List.mem_map_of_mem
      (fun r => if r.id = some event_id then updateFields event now r else r) hr
    simpa [update_calendar_event, if_pos heq] using this
  · intro r
    exact ⟨rfl, rfl, rfl, rfl, rfl, rfl, rfl, rfl, rfl, rfl⟩
  · intro k hk
    have : event.reverse.find? (fun p => p.1 == k) = none :=
      List.find?_eq_none.mpr (fun pr hpr => by
        simp [hk pr (List.mem_reverse.mp hpr)])
    simp [dictGet, this]

/-- Claim C8 (refuted — the code, not the claim, decides the outcome):
`add_calendar_event` always returns failure and leaves the table unchanged,
because its INSERT supplies no `id` and the `INTEGER PRIMARY KEY` column has
no default and no auto-increment in DuckDB, so the NULL id violates the
NOT NULL constraint; consequently the spec's scenario of 3 `alice` and 2
`bob` inserts starting from an empty store yields `total_events = 0` and no
per-creator counts, not 5 and \x7balice: 3, bob: 2\x7d. -/
theorem spec_C8_insert_constraint_failure :
    (∀ (db : EventsTable) (event : StrDict) (username extracted : String) (now : Nat),
       add_calendar_event db event username extracted now = (false, db)) ∧
    (get_calendar_stats
        ((add_calendar_event
          ((add_calendar_event
            ((add_calendar_event
              ((add_calendar_event
                ((add_calendar_event ([] : EventsTable)
                  [("title", "Standup")] "alice" "" 1).2)
                [("title", "Review")] "alice" "" 2).2)
              [("title", "Planning")] "alice" "" 3).2)
            [("title", "Demo")] "bob" "" 4).2)
          [("title", "Retro")] "bob" "" 5).2) 6 =
      { total_events := 0, recent_events := 0, user_counts := [] }) := by
  exact ⟨fun db event username extracted now => rfl, rfl⟩

theorem string_data_append (a b : String) : (a ++ b).data = a.data ++ b.data := rfl

theorem cleanEvents_eq_filterMap (es : List PyJson) :
    cleanEvents es = es.filterMap (fun e =>
      match e with
      | PyJson.obj fields =>
        if hasTruthyTitle fields then some (cleanEvent fields) else none
      | _ => none) := by
  induction es with
  | nil => rfl
  | cons e es ih =>
    cases e <;> simp only [cleanEvents, List.filterMap_cons, ih]
    split <;> simp

theorem mem_cleanEvents (ev : CleanedEvent) (es : List PyJson)
    (h : ev ∈ cleanEvents es) :
    ∃ fields, hasTruthyTitle fields = true ∧ ev = cleanEvent fields := by
  induction es with
  | nil => simp [cleanEvents] at h
  | cons e es ih =>
    cases e <;> simp only [cleanEvents] at h <;> try exact ih h
    rename_i fields
    by_cases ht : hasTruthyTitle fields
    · rw [if_pos ht] at h
      rcases List.mem_cons.mp h with rfl | h'
      · exact ⟨fields, ht, rfl⟩
      · exact ih h'
    · rw [if_neg ht] at h
      exact ih h

theorem pyStr_data_ne_nil_of_truthy (v : PyJson) (h : pyTruthy v = true) :
    (pyStr v).data ≠ [] := by
  cases v with
  | null => simp [pyTruthy] at h
  | bool b =>
    cases b
    · simp [pyTruthy] at h
    · intro hc
      simp [pyStr, pyRepr] at hc
  | num lx =>
    intro hc
    simp only [pyStr, pyRepr] at hc
    have : jsonNumIsZero lx = true := by
      simp [jsonNumIsZero, hc]
    simp [pyTruthy, this] at h
  | str s =>
    intro hc
    simp only [pyStr] at hc
    cases s
    subst hc
    simp [pyTruthy] at h
  | arr es =>
    intro hc
    simp only [pyStr, pyRepr, string_data_append] at hc
    simp at hc
  | obj fs =>
    intro hc
    simp only [pyStr, pyRepr, string_data_append] at hc
    simp at hc

theorem cleanEvent_title_ne_empty (fields : List (String × PyJson))
    (h : hasTruthyTitle fields = true) : (cleanEvent fields).title ≠ "" := by
  unfold hasTruthyTitle at h
  intro hc
  have hget : ∃ v, objGet fields "title" = some v ∧ pyTruthy v = true := by
    cases hv : objGet fields "title" with
    | none => rw [hv] at h; simp at h
    | some v => rw [hv] at h; exact ⟨v, rfl, h⟩
  rcases hget with ⟨v, hv, htr⟩
  have hne := pyStr_data_ne_nil_of_truthy v htr
  have : (cleanEvent fields).title.data = (pyStr v).data.take 100 := by
    simp [cleanEvent, objGetD, hv, pySlice]
  rw [hc] at this
  have h0 : (pyStr v).data.take 100 = [] := this.symm
  rcases List.take_eq_nil_iff.mp h0 with h100 | hnil
  · exact absurd h100 (by decide)
  · exact hne hnil

theorem cleanEvent_length_bounds (fields : List (String × PyJson)) :
    (cleanEvent fields).title.length ≤ 100 ∧
    (cleanEvent fields).description.length ≤ 500 :=
  ⟨List.length_take_le 100 _, List.length_take_le 500 _⟩

/-- Claim C6: the extraction response handling returns the empty sequence
when the fence-stripped text fails to parse as JSON or parses to a non-array;
for an array it keeps exactly the dict elements with a truthy (non-empty)
`title`, coercing the five fields to strings with missing fields defaulting
to the empty string; and every returned draft has a non-empty title of at
most 100 characters and a description of at most 500 characters. -/
theorem spec_C6_response_handling (content : String) :
    (json_loads (fenceStripped content) = none →
       parse_extraction_response content = []) ∧
    (∀ v, json_loads (fenceStripped content) = some v →
       (∀ es, v ≠ PyJson.arr es) → parse_extraction_response content = []) ∧
    (∀ es, json_loads (fenceStripped content) = some (PyJson.arr es) →
       parse_extraction_response content = es.filterMap (fun e =>
         match e with
         | PyJson.obj fields =>
           if hasTruthyTitle fields then some (cleanEvent fields) else none
         | _ => none)) ∧
    (∀ ev ∈ parse_extraction_response content,
       ev.title ≠ "" ∧ ev.title.length ≤ 100 ∧ ev.description.length ≤ 500) := by
  refine ⟨?_, ?_, ?_, ?_⟩
  · intro h
    simp [parse_extraction_response, h]
  · intro v hv hne
    unfold parse_extraction_response
    rw [hv]
    cases v with
    | arr es => exact absurd rfl (hne es)
    | null => rfl
    | bool b => rfl
    | num lx => rfl
    | str s => rfl
    | obj fs => rfl
  · intro es h
    unfold parse_extraction_response
    rw [h]
    exact cleanEvents_eq_filterMap es
  · intro ev hev
    have hfields : ∃ fields, hasTruthyTitle fields = true ∧ ev = cleanEvent fields := by
      unfold parse_extraction_response at hev
      cases hj : json_loads (fenceStripped content) with
      | none => rw [hj] at hev; simp at hev
      | some v =>
        rw [hj] at hev
        cases v with
        | arr es => exact mem_cleanEvents ev es hev
        | null => simp at hev
        | bool b => simp at hev
        | num lx => simp at hev
        | str s => simp at hev
        | obj fs => simp at hev
    rcases hfields with ⟨fields, ht, rfl⟩
    exact ⟨cleanEvent_title_ne_empty fields ht,
           (cleanEvent_length_bounds fields).1, (cleanEvent_length_bounds fields).2⟩

/-- Claim C7: on the spec's two test vectors — a Markdown-fenced JSON array
with one `Team Meeting` object, and the literal refusal text — the extraction
response handling returns exactly one draft titled `Team Meeting`, and the
empty sequence, respectively. -/
theorem spec_C7_extraction_test_vectors :
    parse_extraction_response "```json\n[\x7b\"title\": \"Team Meeting\", \"date\": \"2025-06-08\", \"time\": \"2:00 PM\", \"location\": \"\", \"description\": \"\"\x7d]\n```" =
      [{ title := "Team Meeting", date := "2025-06-08", time := "2:00 PM",
         location := "", description := "" }] ∧
    parse_extraction_response "Sorry, I cannot help with that." = [] :=
  ⟨rfl, rfl⟩

/-! ## Concrete witnesses -/

/-- Witness for claim C1 at a concrete user and password. -/
theorem spec_C1_witness :
    (add_user (fun s => s) [] "alice" "pw" ["calendar"] 0).1 = true ∧
    (authenticate (fun s => s) (add_user (fun s => s) [] "alice" "pw" ["calendar"] 0).2
        "alice" "pw" 1).1 = some { username := "alice", permissions := ["calendar"] } ∧
    (authenticate (fun s => s) (add_user (fun s => s) [] "alice" "pw" ["calendar"] 0).2
        "alice" "bad" 1).1 = none := by
  obtain ⟨h1, h2, h3⟩ := spec_C1_add_then_authenticate (fun s => s) [] "alice" "pw"
    ["calendar"] 0 1 (by simp) (by decide)
  exact ⟨h1, h2, h3 "bad" (by decide)⟩

/-- Witness for claim C2 at concrete sessions. -/
theorem spec_C2_witness :
    is_admin { username := some "admin", permissions := some [] } = true ∧
    check_permission { username := some "admin", permissions := some [] } "calendar" = false ∧
    check_permission { username := some "bob", permissions := some ["calendar"] } "calendar" = true := by
  obtain ⟨h1, h2, h3, h4, h5⟩ := spec_C2_session_checks
  refine ⟨(h5 "calendar").1, (h5 "calendar").2, ?_⟩
  exact (h4 { username := some "bob", permissions := some ["calendar"] } "calendar"
    ["calendar"] rfl (by rfl)).mpr (by decide)

/-- Witness for claim C3 at a one-row table holding the admin record. -/
theorem spec_C3_witness :
    delete_user [{ username := "admin", password_hash := "h",
                   permissions := "calendar,image_generator", created_at := 0,
                   last_login := none }] "admin" =
      (false, [{ username := "admin", password_hash := "h",
                 permissions := "calendar,image_generator", created_at := 0,
                 last_login := none }]) ∧
    (∃ uinfo ∈ get_all_users (delete_user
        [{ username := "admin", password_hash := "h",
           permissions := "calendar,image_generator", created_at := 0,
           last_login := none }] "admin").2, uinfo.username = "admin") := by
  obtain ⟨h1, h2⟩ := spec_C3_delete_admin_fails
    [{ username := "admin", password_hash := "h",
       permissions := "calendar,image_generator", created_at := 0,
       last_login := none }]
  exact ⟨h1, h2 _ (List.mem_cons_self _ _) rfl⟩

/-- Witness for claim C4 at a concrete user. -/
theorem spec_C4_witness :
    (authenticate (fun s => s)
        (add_user (fun s => s) [] "alice" "pw" [] 0).2 "alice" "pw" 1).1 =
      some { username := "alice", permissions := [] } :=
  (spec_C4_permission_roundtrip (fun s => s) "alice" "pw" 0 1
    ["calendar", "image_generator"] (Or.inl rfl)).2.2.1

/-- Witness for claim C5 at a one-row table. -/
theorem spec_C5_witness :
    add_user (fun s => s)
      [{ username := "alice", password_hash := "pw", permissions := "",
         created_at := 0, last_login := none }] "alice" "pw2" ["calendar"] 3 =
      (false, [{ username := "alice", password_hash := "pw", permissions := "",
                 created_at := 0, last_login := none }]) :=
  (spec_C5_add_user_idempotent_failing (fun s => s)
    [{ username := "alice", password_hash := "pw", permissions := "",
       created_at := 0, last_login := none }] "alice").1 "pw2" ["calendar"] 3
    ⟨_, List.mem_cons_self _ _, rfl⟩

/-- Witness for claim C6 at a non-JSON response text. -/
theorem spec_C6_witness : parse_extraction_response "not json" = [] :=
  (spec_C6_response_handling "not json").1 rfl

/-- Witness for claim C9 at a table without the updated username. -/
theorem spec_C9_witness :
    update_permissions
      [{ username := "alice", password_hash := "h", permissions := "",
         created_at := 0, last_login := none }] "bob" ["calendar"] =
      (true, [{ username := "alice", password_hash := "h", permissions := "",
                created_at := 0, last_login := none }]) :=
  spec_C9_update_permissions_unknown_user _ "bob" ["calendar"] (by decide)

/-- Witness for claim C10 at a one-row table and a dict carrying only a
title. -/
theorem spec_C10_witness :
    updateFields [("title", "T")] 9
        { id := some 1, title := "Old", event_date := "d", event_time := "t",
          location := "l", description := "x", extracted_text := "raw",
          created_by := "alice", created_at := 0, updated_at := 0 } ∈
      (update_calendar_event
        [{ id := some 1, title := "Old", event_date := "d", event_time := "t",
           location := "l", description := "x", extracted_text := "raw",
           created_by := "alice", created_at := 0, updated_at := 0 }]
        1 [("title", "T")] 9).2 ∧
    dictGet [("title", "T")] "date" = "" := by
  obtain ⟨h1, h2, h3, h4, h5⟩ := spec_C10_update_event_fields
    [{ id := some 1, title := "Old", event_date := "d", event_time := "t",
       location := "l", description := "x", extracted_text := "raw",
       created_by := "alice", created_at := 0, updated_at := 0 }]
    1 [("title", "T")] 9
  exact ⟨h3 _ (List.mem_cons_self _ _) rfl, h5 "date" (by decide)⟩
